import Mathlib

/-!
Verification of the metadata resolution and embedding engine of the
google-metadata-processor repository (Google Photos Takeout processor),
as a shallow embedding of the Python sources:

* `src/takeout_processor.py` — sidecar lookup (`find_json_metadata`),
  edited-photo pattern matcher (`_is_edited_photo`, `_get_original_name`),
  batch processing with verification (`_process_batch_with_verification`,
  `_process_files_individually`, `process_with_exiftool`), per-file
  verification (`_verify_file_processing`), extension fixing
  (`fix_file_extensions`) and reporting (`generate_report`).
* `src/verify_processing.py` — timestamp tolerance check
  (`verify_timestamp_accuracy`).

Filesystem probes and the external tool (ExifTool) are modelled as oracles
passed in explicitly; every write-like action the code can take is recorded
in an explicit event trace, so frame properties (dry run) and routing
properties (which assets end in which output set) are provable.
-/

/-! ## Basic string utilities (Python `in`, `replace`, `lower`, digits) -/

/-- Python `str.lower` for the ASCII range (filenames handled by the tool). -/
def lowerChar (c : Char) : Char :=
  if 65 ≤ c.toNat && c.toNat ≤ 90 then Char.ofNat (c.toNat + 32) else c

/-- Lowercase a string characterwise, as Python `filename.lower()` does. -/
def strToLower (s : String) : String :=
  ⟨s.toList.map lowerChar⟩

/-- Containment of `pat` in a character list, scanning left to right
(the semantics of Python `pat in s`). -/
def listContains (pat : List Char) : List Char → Bool
  | [] => pat.isEmpty
  | c :: rest => pat.isPrefixOf (c :: rest) || listContains pat rest

/-- Python `pat in s` on strings. -/
def pyContains (s pat : String) : Bool :=
  listContains pat.toList s.toList

/-- One left-to-right pass replacing every non-overlapping occurrence of
`pat` (assumed nonempty) by `repl`, the semantics of Python
`s.replace(pat, repl)`.  The `Nat` argument is recursion fuel; it is
instantiated with the length of the scanned list, which always suffices
because every step consumes at least one character. -/
def replaceFromAux (pat repl : List Char) : Nat → List Char → List Char
  | 0, s => s
  | _, [] => []
  | fuel + 1, c :: rest =>
    if pat.isPrefixOf (c :: rest) && !pat.isEmpty then
      repl ++ replaceFromAux pat repl fuel (rest.drop (pat.length - 1))
    else
      c :: replaceFromAux pat repl fuel rest

/-- Python `s.replace(pat, repl)` for nonempty `pat`. -/
def pyReplace (s pat repl : String) : String :=
  ⟨replaceFromAux pat.toList repl.toList s.toList.length s.toList⟩

/-- Drop the final extension (everything from the last dot on); the name is
returned unchanged when it has no dot.  Used for `Path.stem` /
`Path.with_suffix` style manipulation. -/
def dropExt (cs : List Char) : List Char :=
  match cs.reverse.dropWhile (fun c => !(c == '.')) with
  | [] => cs
  | _ :: rest => rest.reverse

/-- Python `Path.stem`. -/
def stemOf (name : String) : String :=
  ⟨dropExt name.toList⟩

/-- ASCII digit test. -/
def isDigit (c : Char) : Bool :=
  48 ≤ c.toNat && c.toNat ≤ 57

/-- Numeric value of an ASCII digit. -/
def digitVal (c : Char) : Nat :=
  c.toNat - 48

/-- Read exactly `n` digits, accumulating their value; fails if a non-digit
or the end of input is hit first. -/
def readDigits : Nat → Nat → List Char → Option (Nat × List Char)
  | 0, acc, cs => some (acc, cs)
  | _ + 1, _, [] => none
  | n + 1, acc, c :: cs =>
    if isDigit c then readDigits n (acc * 10 + digitVal c) cs else none

/-! ## Pattern matcher: edited-photo detection and original-name recovery
(`_is_edited_photo`, `_get_original_name` in `src/takeout_processor.py`,
lines 324-352). -/

/-- The fixed marker set of `_is_edited_photo` (matched against the
lowercased filename, in source order). -/
def edited_markers : List String :=
  ["-edited", "-effects-edited", "_edited", "_1-edited"]

/-- Model of `_is_edited_photo`: the filename is lowercased, then each marker is
tested for containment. -/
def is_edited_photo (name : String) : Bool :=
  edited_markers.any (fun p => pyContains (strToLower name) p)

/-- The pattern list of `_get_original_name`, in source order. -/
def patterns_to_remove : List String :=
  ["-EFFECTS-edited", "-edited", "_1-edited", "_edited"]

/-- Model of `_get_original_name`: the first pattern contained in the raw (not
lowercased) filename is removed (all occurrences) and the result returned;
`none` when no pattern is contained. -/
def get_original_name (filename : String) : Option String :=
  match patterns_to_remove.find? (fun p => pyContains filename p) with
  | some p => some (pyReplace filename p "")
  | none => none

/-! ## Helper lemmas about `listContains` -/

theorem listContains_iff_isInf (pat s : List Char) :
    listContains pat s = true ↔ pat <:+: s := by
  induction s with
  | nil =>
    simp [listContains, List.isEmpty_iff, List.infix_nil]
  | cons c rest ih =>
    simp [listContains, Bool.or_eq_true, ih, List.infix_cons_iff,
      List.isPrefixOf_iff_prefix]

/-- C6: the claim says recovering the original name from
"IMG_20180804_134812_1-edited.jpg" strips the longest marker and yields
"IMG_20180804_134812.jpg".  The code checks `-edited` before `_1-edited`,
so it strips `-edited` and returns "IMG_20180804_134812_1.jpg" instead;
the `_1-edited` entry of `patterns_to_remove` (annotated in the source as
handling exactly this filename) is unreachable. -/
theorem c6_get_original_name_eval :
    get_original_name "IMG_20180804_134812_1-edited.jpg" =
      some "IMG_20180804_134812_1.jpg" ∧
    ¬ (get_original_name "IMG_20180804_134812_1-edited.jpg" =
      some "IMG_20180804_134812.jpg") := by
  constructor <;> decide

/-- C7 counterexample: "A-EDITED.jpg" contains no marker of the fixed set
case-sensitively, yet `_is_edited_photo` classifies it as an edited
variant (the code lowercases the filename before matching), refuting the
claim that matching is case-sensitive. -/
theorem c7_counterexample :
    is_edited_photo "A-EDITED.jpg" = true ∧
    (edited_markers.all (fun p => !(pyContains "A-EDITED.jpg" p))) = true := by
  constructor <;> decide

/-- C7 (amended): the edited-variant test is case-insensitive — the
filename is lowercased and then tested against the fixed marker set; since
"-effects-edited" and "_1-edited" both contain "-edited", the test
succeeds exactly when the lowercased name contains "-edited" or
"_edited".  In particular a name containing "-EDITED" is classified as an
edited variant. -/
theorem c7_edited_case_insensitive (name : String) :
    is_edited_photo name =
      (pyContains (strToLower name) "-edited" ||
       pyContains (strToLower name) "_edited") := by
  have h2 : pyContains (strToLower name) "-effects-edited" = true →
      pyContains (strToLower name) "-edited" = true := by
    intro h
    rw [pyContains, listContains_iff_isInf] at h ⊢
    exact List.IsInfix.trans ((listContains_iff_isInf _ _).mp (by decide)) h
  have h4 : pyContains (strToLower name) "_1-edited" = true →
      pyContains (strToLower name) "-edited" = true := by
    intro h
    rw [pyContains, listContains_iff_isInf] at h ⊢
    exact List.IsInfix.trans ((listContains_iff_isInf _ _).mp (by decide)) h
  simp only [is_edited_photo, edited_markers, List.any_cons, List.any_nil,
    Bool.or_false]
  cases hA : pyContains (strToLower name) "-edited" with
  | true => simp
  | false =>
    cases hB : pyContains (strToLower name) "_edited" with
    | true => simp
    | false =>
      cases hC : pyContains (strToLower name) "-effects-edited" with
      | true => exact absurd (h2 hC) (by simp [hA])
      | false =>
        cases hD : pyContains (strToLower name) "_1-edited" with
        | true => exact absurd (h4 hD) (by simp [hA])
        | false => simp

/-! ## Sidecar lookup (`find_json_metadata` in `src/takeout_processor.py`,
lines 286-322).  The filesystem is abstracted by an existence oracle on
path strings; the asset is given as parent directory plus file name. -/

/-- Standard metadata suffix candidate. -/
def pat1 (base : String) : String := base ++ ".supplemental-metadata.json"

/-- Vendor-misspelling candidate (Google's typo). -/
def pat2 (base : String) : String := base ++ ".supplemental-metada.json"

/-- Short-form candidate. -/
def pat3 (base : String) : String := base ++ ".s.json"

/-- Plain `.json` candidate. -/
def pat4 (base : String) : String := base ++ ".json"

/-- The ordered candidate list of `find_json_metadata` (source order). -/
def sidecar_patterns (base : String) : List String :=
  [pat1 base, pat2 base, pat3 base, pat4 base]

/-- Model of `find_json_metadata`: try the four direct candidates for the asset's
exact name in order, returning the first existing path; only if none
exists and the asset is an edited variant with a recoverable original
name, repeat the same search for the original name in the same
directory. -/
def find_json_metadata (ex : String → Bool) (parent name : String) :
    Option String :=
  match (sidecar_patterns (parent ++ "/" ++ name)).find? ex with
  | some p => some p
  | none =>
    if is_edited_photo name then
      match get_original_name name with
      | some orig => (sidecar_patterns (parent ++ "/" ++ orig)).find? ex
      | none => none
    else none

/-- C3: sidecar lookup tries the four suffix conventions against the
asset's exact name in the fixed source order and returns the first
existing path; whenever any direct candidate exists the result is that
first existing direct candidate — the edited-variant inherited lookup is
never consulted and no lower-precedence result is returned. -/
theorem c3_direct_precedence (ex : String → Bool) (parent name : String)
    (h : (sidecar_patterns (parent ++ "/" ++ name)).any ex = true) :
    find_json_metadata ex parent name =
      some (if ex (pat1 (parent ++ "/" ++ name)) then pat1 (parent ++ "/" ++ name)
            else if ex (pat2 (parent ++ "/" ++ name)) then pat2 (parent ++ "/" ++ name)
            else if ex (pat3 (parent ++ "/" ++ name)) then pat3 (parent ++ "/" ++ name)
            else pat4 (parent ++ "/" ++ name)) ∧
    (∀ q, find_json_metadata ex parent name = some q →
      q ∈ sidecar_patterns (parent ++ "/" ++ name) ∧ ex q = true) := by
  cases h1 : ex (pat1 (parent ++ "/" ++ name)) <;>
    cases h2 : ex (pat2 (parent ++ "/" ++ name)) <;>
      cases h3 : ex (pat3 (parent ++ "/" ++ name)) <;>
        cases h4 : ex (pat4 (parent ++ "/" ++ name)) <;>
          simp_all [find_json_metadata, sidecar_patterns, List.find?]

/-- Existence oracle for the C3 witness: only the short-form candidate of
"p/n" exists. -/
def exC3 : String → Bool := fun s => s == "p/n.s.json"

/-- C3 witness: the theorem applied at a concrete oracle where only the
third candidate exists. -/
theorem c3_direct_precedence_witness :
    ((sidecar_patterns ("p" ++ "/" ++ "n")).any exC3 = true) ∧
    (find_json_metadata exC3 "p" "n" =
      some (if exC3 (pat1 ("p" ++ "/" ++ "n")) then pat1 ("p" ++ "/" ++ "n")
            else if exC3 (pat2 ("p" ++ "/" ++ "n")) then pat2 ("p" ++ "/" ++ "n")
            else if exC3 (pat3 ("p" ++ "/" ++ "n")) then pat3 ("p" ++ "/" ++ "n")
            else pat4 ("p" ++ "/" ++ "n")) ∧
     (∀ q, find_json_metadata exC3 "p" "n" = some q →
       q ∈ sidecar_patterns ("p" ++ "/" ++ "n") ∧ exC3 q = true)) :=
  ⟨by decide, c3_direct_precedence exC3 "p" "n" (by decide)⟩

/-! ## Per-file verification (`_verify_file_processing` in
`src/takeout_processor.py`, lines 642-688).  The sidecar JSON is modelled
by the record the code reads out of it (`json_data.get(...)` accesses with
their defaults), the re-read embedded fields by an `ExifData` record.
Python truthiness on an optional string is `isSome` plus nonemptiness. -/

/-- Fields of the sidecar JSON consumed by verification.  `nonempty`
records whether the parsed dict has any keys at all (`if not json_data:
return False`); `geoLatitude := none` models a missing
`geoData.latitude` key, which `.get(..., 0)` defaults to zero. -/
structure SidecarData where
  nonempty : Bool
  photoTakenTimestamp : Option String
  geoLatitude : Option Rat
  description : String
deriving DecidableEq

/-- Embedded fields re-read from the asset via the external tool. -/
structure ExifData where
  dateTimeOriginal : Option String
  gpsLatitude : Option String
  description : Option String
deriving DecidableEq

/-- Python truthiness of an optional string value. -/
def optTruthy : Option String → Bool
  | none => false
  | some s => !(s == "")

/-- Model of `_verify_file_processing`, given that a sidecar was found and loaded
and the read-back query succeeded: empty sidecar dict fails outright;
otherwise at least one of the date / GPS / description branches must
fire. -/
def verify_file_processing (j : SidecarData) (e : ExifData) : Bool :=
  if j.nonempty then
    (optTruthy j.photoTakenTimestamp && optTruthy e.dateTimeOriginal)
    || (!(decide (j.geoLatitude.getD 0 = 0)) && optTruthy e.gpsLatitude)
    || (!(j.description == "") && optTruthy e.description)
  else false

/-- C2: verification succeeds iff (timestamp present in sidecar and
DateTimeOriginal now present) or (latitude non-zero in sidecar and
GPSLatitude now present) or (description non-empty in sidecar and
Description now present); a missing latitude key behaves exactly as the
zero default and can never fire the GPS branch.  The hypothesis states
the coherence of the raw-dict emptiness flag with the field view. -/
theorem c2_verify_iff (j : SidecarData) (e : ExifData)
    (hc : j.nonempty = false →
      j.photoTakenTimestamp = none ∧ j.geoLatitude = none ∧ j.description = "") :
    (verify_file_processing j e = true ↔
      ((optTruthy j.photoTakenTimestamp = true ∧ optTruthy e.dateTimeOriginal = true) ∨
       (j.geoLatitude.getD 0 ≠ 0 ∧ optTruthy e.gpsLatitude = true) ∨
       (j.description ≠ "" ∧ optTruthy e.description = true))) ∧
    (j.geoLatitude = none →
      (verify_file_processing j e = true ↔
        ((optTruthy j.photoTakenTimestamp = true ∧ optTruthy e.dateTimeOriginal = true) ∨
         (j.description ≠ "" ∧ optTruthy e.description = true)))) := by
  cases hne : j.nonempty with
  | false =>
    obtain ⟨hp, hg, hd⟩ := hc hne
    constructor
    · simp [verify_file_processing, hne, hp, hg, hd, optTruthy]
    · intro
      simp [verify_file_processing, hne, hp, hd, optTruthy]
  | true =>
    constructor
    · simp [verify_file_processing, hne, Bool.or_eq_true, Bool.and_eq_true,
        decide_eq_true_iff, -Bool.decide_or, -Bool.decide_and]
      tauto
    · intro hg
      simp [verify_file_processing, hne, hg, Bool.or_eq_true, Bool.and_eq_true]

/-- Sidecar record for the C2 witness. -/
def jC2 : SidecarData := ⟨true, some "1693584000", none, "hello"⟩

/-- Embedded record for the C2 witness. -/
def eC2 : ExifData := ⟨some "2023:09:01 16:00:00", none, some "hello"⟩

/-- C2 witness: the theorem applied at a concrete sidecar/exif pair. -/
theorem c2_verify_iff_witness :
    (jC2.nonempty = false →
      jC2.photoTakenTimestamp = none ∧ jC2.geoLatitude = none ∧ jC2.description = "") ∧
    ((verify_file_processing jC2 eC2 = true ↔
      ((optTruthy jC2.photoTakenTimestamp = true ∧ optTruthy eC2.dateTimeOriginal = true) ∨
       (jC2.geoLatitude.getD 0 ≠ 0 ∧ optTruthy eC2.gpsLatitude = true) ∨
       (jC2.description ≠ "" ∧ optTruthy eC2.description = true))) ∧
     (jC2.geoLatitude = none →
       (verify_file_processing jC2 eC2 = true ↔
         ((optTruthy jC2.photoTakenTimestamp = true ∧ optTruthy eC2.dateTimeOriginal = true) ∨
          (jC2.description ≠ "" ∧ optTruthy eC2.description = true))))) :=
  ⟨by decide, c2_verify_iff jC2 eC2 (by decide)⟩

/-! ## Batch processing pipeline (`process_with_exiftool`,
`_process_batch_with_verification`, `_process_files_individually`,
`fix_file_extensions`, `generate_report` in `src/takeout_processor.py`).

The filesystem and the external tool are oracles in a `RunEnv`; every
action that touches the filesystem or issues an ExifTool invocation is
recorded as an `Event`, so both routing and frame properties can be
stated over the trace. -/

/-- Observable actions of the pipeline.  `exifRead` and `verifyCall` are
read-only queries; everything else writes (renames, ExifTool write
invocations, copies, the report file). -/
inductive Event where
  | batchInvoke (files : List String)
  | indivInvoke (f : String)
  | verifyCall (f : String) (ok : Bool)
  | exifRead (f : String)
  | rename (old new : String)
  | copyOut (f : String)
  | copyUnmapped (f : String)
  | writeReport
deriving DecidableEq

/-- Whether an event modifies anything (a rename, an ExifTool write
invocation, a copy into an output tree, or writing the report). -/
def Event.isWriteEffect : Event → Bool
  | .exifRead _ => false
  | .verifyCall _ _ => false
  | _ => true

/-- Outcome of one bulk ExifTool invocation: `fail` covers a non-zero
exit status, `subprocess.TimeoutExpired` and any other raised exception —
the three source paths that all degrade to individual processing. -/
inductive BatchExec where
  | ok
  | fail
deriving DecidableEq

/-- Oracles describing one run: whether `find_json_metadata` resolves a
sidecar for a file, what `_verify_file_processing` returns when invoked
on it, whether its individual ExifTool invocation exits 0 (false also
covers a timeout or exception on that invocation), the outcome of each
numbered bulk invocation, and what `detect_file_type_mismatch` reports. -/
structure RunEnv where
  hasJson : String → Bool
  verifyOk : String → Bool
  indivExitOk : String → Bool
  batchExec : Nat → BatchExec
  detect : String → Option String

/-- Per-batch bookkeeping of `_process_batch_with_verification` /
`_process_files_individually`: success count, unmapped list, processed
list (source order preserved). -/
structure BatchResult where
  success : Nat
  unmapped : List String
  processed : List String
deriving DecidableEq

/-- Model of `_process_files_individually`: a file with no sidecar goes straight
to the unmapped list with no invocation; otherwise its own invocation is
issued and, only on exit 0, verification runs and decides whether the
file is counted and recorded as processed. -/
def processFilesIndividually (env : RunEnv) : List String → BatchResult × List Event
  | [] => (⟨0, [], []⟩, [])
  | f :: rest =>
    let r := processFilesIndividually env rest
    if env.hasJson f then
      if env.indivExitOk f then
        if env.verifyOk f then
          (⟨r.1.success + 1, r.1.unmapped, f :: r.1.processed⟩,
           Event.indivInvoke f :: Event.verifyCall f true :: r.2)
        else
          (r.1, Event.indivInvoke f :: Event.verifyCall f false :: r.2)
      else
        (r.1, Event.indivInvoke f :: r.2)
    else
      (⟨r.1.success, f :: r.1.unmapped, r.1.processed⟩, r.2)

/-- The per-file loop of the batch-success path of
`_process_batch_with_verification` (lines 544-555): every file is
verified; a verified file is counted and recorded as processed; a file
failing verification is added to the unmapped list only when no sidecar
is found for it. -/
def routeVerifiedBatch (env : RunEnv) : List String → BatchResult × List Event
  | [] => (⟨0, [], []⟩, [])
  | f :: rest =>
    let r := routeVerifiedBatch env rest
    if env.verifyOk f then
      (⟨r.1.success + 1, r.1.unmapped, f :: r.1.processed⟩,
       Event.verifyCall f true :: r.2)
    else
      if env.hasJson f then
        (r.1, Event.verifyCall f false :: r.2)
      else
        (⟨r.1.success, f :: r.1.unmapped, r.1.processed⟩,
         Event.verifyCall f false :: r.2)

/-- Model of `_process_batch_with_verification`: the bulk invocation is issued; on
success each file is routed by verification, on failure (non-zero exit,
timeout or exception) the whole result is taken from
`_process_files_individually`. -/
def processBatchWithVerification (env : RunEnv) (i : Nat) (batch : List String) :
    BatchResult × List Event :=
  match env.batchExec i with
  | BatchExec.ok =>
    ((routeVerifiedBatch env batch).1,
     Event.batchInvoke batch :: (routeVerifiedBatch env batch).2)
  | BatchExec.fail =>
    ((processFilesIndividually env batch).1,
     Event.batchInvoke batch :: (processFilesIndividually env batch).2)

/-- Slicing of the file list into batches of `n`
(`media_files[start_idx:end_idx]` over `range(total_batches)`); the `Nat`
fuel is instantiated with the list length, which suffices for `n > 0`. -/
def chunkAux (n : Nat) : Nat → List String → List (List String)
  | 0, _ => []
  | _, [] => []
  | fuel + 1, l => l.take n :: chunkAux n fuel (l.drop n)

/-- Batches of size `n` of a file list. -/
def chunkList (n : Nat) (l : List String) : List (List String) :=
  chunkAux n l.length l

/-- Whole-run bookkeeping of `process_with_exiftool`. -/
structure RunOutcome where
  successCount : Nat
  unmapped : List String
  processed : List String
deriving DecidableEq

/-- The non-dry-run batch loop of `process_with_exiftool`: batches are
numbered from 1 and their results accumulated in order. -/
def runBatches (env : RunEnv) : Nat → List (List String) → RunOutcome × List Event
  | _, [] => (⟨0, [], []⟩, [])
  | i, b :: rest =>
    (⟨(processBatchWithVerification env i b).1.success
        + (runBatches env (i + 1) rest).1.successCount,
      (processBatchWithVerification env i b).1.unmapped
        ++ (runBatches env (i + 1) rest).1.unmapped,
      (processBatchWithVerification env i b).1.processed
        ++ (runBatches env (i + 1) rest).1.processed⟩,
     (processBatchWithVerification env i b).2 ++ (runBatches env (i + 1) rest).2)

/-- The dry-run per-batch loop (lines 448-465): no invocation is issued;
files with a sidecar are recorded as processed, the rest as unmapped
(first component unmapped, second processed). -/
def dryClassify (env : RunEnv) : List String → List String × List String
  | [] => ([], [])
  | f :: rest =>
    if env.hasJson f then
      ((dryClassify env rest).1, f :: (dryClassify env rest).2)
    else
      (f :: (dryClassify env rest).1, (dryClassify env rest).2)

/-- The dry-run batch loop: `success_count += len(batch)` per batch and
the per-file classification, with no events at all. -/
def dryOutcome (env : RunEnv) : List (List String) → RunOutcome
  | [] => ⟨0, [], []⟩
  | b :: rest =>
    ⟨b.length + (dryOutcome env rest).successCount,
     (dryClassify env b).1 ++ (dryOutcome env rest).unmapped,
     (dryClassify env b).2 ++ (dryOutcome env rest).processed⟩

/-- Model of `process_with_exiftool`: slice into batches; in dry-run mode only
in-memory statistics change; otherwise run the batches and then copy the
processed files to the output tree and the unmapped files to the
side tree (`_copy_processed_files_to_output`, `_handle_unmapped_files`). -/
def processWithExiftool (env : RunEnv) (dryRun : Bool) (files : List String)
    (batchSize : Nat) : RunOutcome × List Event :=
  if dryRun then
    (dryOutcome env (chunkList batchSize files), [])
  else
    ((runBatches env 1 (chunkList batchSize files)).1,
     (runBatches env 1 (chunkList batchSize files)).2
       ++ ((runBatches env 1 (chunkList batchSize files)).1.processed.map Event.copyOut)
       ++ ((runBatches env 1 (chunkList batchSize files)).1.unmapped.map Event.copyUnmapped))

/-- Model of `Path.with_suffix`: replace the extension of the final component (the
new extension string includes its dot, as in `f".{correct_type}"`). -/
def withSuffix (f ext : String) : String :=
  ⟨dropExt f.toList⟩ ++ ext

/-- Model of `fix_file_extensions`: every file is probed with a read-only ExifTool
query (`detect_file_type_mismatch`); on a reported mismatch the corrected
path replaces the entry in the returned list, and the rename itself is
performed only when not in dry-run mode. -/
def fix_file_extensions (env : RunEnv) (dryRun : Bool) :
    List String → List String × List Event
  | [] => ([], [])
  | f :: rest =>
    let r := fix_file_extensions env dryRun rest
    match env.detect f with
    | some t =>
      if dryRun then
        (withSuffix f ("." ++ t) :: r.1, Event.exifRead f :: r.2)
      else
        (withSuffix f ("." ++ t) :: r.1,
         Event.exifRead f :: Event.rename f (withSuffix f ("." ++ t)) :: r.2)
    | none => (f :: r.1, Event.exifRead f :: r.2)

/-- The final report of `generate_report`: the success rate is
`processed / max(1, total) * 100`, and the report file is written only
when not in dry-run mode. -/
structure Report where
  processedFiles : Nat
  totalFiles : Nat
  successRate : Rat

/-- Model of `generate_report` on the statistics it reads. -/
def generate_report (dryRun : Bool) (processedFiles totalFiles : Nat) :
    Report × List Event :=
  (⟨processedFiles, totalFiles,
    (processedFiles : Rat) / ((max 1 totalFiles : Nat) : Rat) * 100⟩,
   if dryRun then [] else [Event.writeReport])

/-- Number of verification calls in a trace that returned true — the
assets that passed per-asset verification. -/
def countVerified (evs : List Event) : Nat :=
  evs.countP (fun e => match e with
    | Event.verifyCall _ true => true
    | _ => false)

/-! ## Helper lemmas about the pipeline -/

theorem countVerified_append (l1 l2 : List Event) :
    countVerified (l1 ++ l2) = countVerified l1 + countVerified l2 := by
  simp [countVerified, List.countP_append]

theorem countVerified_map_copyOut (l : List String) :
    countVerified (l.map Event.copyOut) = 0 := by
  induction l with
  | nil => rfl
  | cons a t ih => simp [countVerified, List.countP_cons, ih]

theorem countVerified_map_copyUnmapped (l : List String) :
    countVerified (l.map Event.copyUnmapped) = 0 := by
  induction l with
  | nil => rfl
  | cons a t ih => simp [countVerified, List.countP_cons, ih]

theorem route_processed_eq (env : RunEnv) (batch : List String) :
    (routeVerifiedBatch env batch).1.processed
      = batch.filter (fun g => env.verifyOk g) := by
  induction batch with
  | nil => rfl
  | cons g rest ih =>
    cases hv : env.verifyOk g <;> cases hj : env.hasJson g <;>
      simp [routeVerifiedBatch, List.filter, hv, hj, ih]

theorem route_unmapped_eq (env : RunEnv) (batch : List String) :
    (routeVerifiedBatch env batch).1.unmapped
      = batch.filter (fun g => !env.verifyOk g && !env.hasJson g) := by
  induction batch with
  | nil => rfl
  | cons g rest ih =>
    cases hv : env.verifyOk g <;> cases hj : env.hasJson g <;>
      simp [routeVerifiedBatch, List.filter, hv, hj, ih]

theorem route_success_eq_countVerified (env : RunEnv) (batch : List String) :
    (routeVerifiedBatch env batch).1.success
      = countVerified (routeVerifiedBatch env batch).2 := by
  induction batch with
  | nil => rfl
  | cons g rest ih =>
    cases hv : env.verifyOk g <;> cases hj : env.hasJson g <;>
      simp [routeVerifiedBatch, countVerified, List.countP_cons, hv, hj] <;>
        simp [countVerified] at ih <;> omega

theorem indiv_unmapped_eq (env : RunEnv) (batch : List String) :
    (processFilesIndividually env batch).1.unmapped
      = batch.filter (fun g => !env.hasJson g) := by
  induction batch with
  | nil => rfl
  | cons g rest ih =>
    cases hj : env.hasJson g <;> cases hx : env.indivExitOk g <;>
      cases hv : env.verifyOk g <;>
        simp [processFilesIndividually, List.filter, hj, hx, hv, ih]

theorem indiv_success_eq_countVerified (env : RunEnv) (batch : List String) :
    (processFilesIndividually env batch).1.success
      = countVerified (processFilesIndividually env batch).2 := by
  induction batch with
  | nil => rfl
  | cons g rest ih =>
    cases hj : env.hasJson g <;> cases hx : env.indivExitOk g <;>
      cases hv : env.verifyOk g <;>
        simp [processFilesIndividually, countVerified, List.countP_cons, hj, hx, hv] <;>
          simp [countVerified] at ih <;> omega

theorem indiv_invoked_mem (env : RunEnv) (batch : List String) (f : String)
    (hf : f ∈ batch) (hj : env.hasJson f = true) :
    Event.indivInvoke f ∈ (processFilesIndividually env batch).2 := by
  induction batch with
  | nil => cases hf
  | cons g rest ih =>
    rcases List.mem_cons.mp hf with rfl | hf'
    · cases hx : env.indivExitOk f <;> cases hv : env.verifyOk f <;>
        simp [processFilesIndividually, hj, hx, hv]
    · have hmem := ih hf'
      cases h1 : env.hasJson g <;> cases hx : env.indivExitOk g <;>
        cases hv : env.verifyOk g <;>
          simp [processFilesIndividually, h1, hx, hv, hmem]

theorem batch_success_eq_countVerified (env : RunEnv) (i : Nat)
    (batch : List String) :
    (processBatchWithVerification env i batch).1.success
      = countVerified (processBatchWithVerification env i batch).2 := by
  unfold processBatchWithVerification
  cases hb : env.batchExec i
  · simpa [countVerified, List.countP_cons] using
      route_success_eq_countVerified env batch
  · simpa [countVerified, List.countP_cons] using
      indiv_success_eq_countVerified env batch

theorem runBatches_success_eq_countVerified (env : RunEnv)
    (bs : List (List String)) :
    ∀ i, (runBatches env i bs).1.successCount
      = countVerified (runBatches env i bs).2 := by
  induction bs with
  | nil => intro i; rfl
  | cons b rest ih =>
    intro i
    simp [runBatches, countVerified_append,
      batch_success_eq_countVerified env i b, ih (i + 1)]

/-! ## C1: routing of verification failures in a successful batch -/

/-- Run oracle for the C1 counterexample: the asset has a sidecar, the
bulk invocation succeeds, verification fails. -/
def envC1 : RunEnv :=
  ⟨fun _ => true, fun _ => false, fun _ => true, fun _ => BatchExec.ok,
   fun _ => none⟩

/-- C1 counterexample: an asset whose batch invocation succeeds, whose
verification fails and whose sidecar exists ends in neither the processed
set nor the unmapped set of the run — it is omitted from both output
trees, refuting the claim that it is routed to one of them. -/
theorem c1_counterexample :
    envC1.hasJson "a.jpg" = true ∧ envC1.verifyOk "a.jpg" = false ∧
    envC1.batchExec 1 = BatchExec.ok ∧
    ¬ ("a.jpg" ∈ (processWithExiftool envC1 false ["a.jpg"] 50).1.processed ∨
       "a.jpg" ∈ (processWithExiftool envC1 false ["a.jpg"] 50).1.unmapped) := by
  refine ⟨rfl, rfl, rfl, ?_⟩
  decide

/-- C1 (amended): in a batch whose bulk invocation succeeds, an asset
that passes verification is routed to the processed set; an asset that
fails verification with no locatable sidecar is routed to the unmapped
set; but an asset that fails verification while a sidecar exists is
placed in neither set — it is dropped from both output trees. -/
theorem c1_batch_routing (env : RunEnv) (i : Nat) (batch : List String)
    (f : String) (hf : f ∈ batch) (hexec : env.batchExec i = BatchExec.ok) :
    (env.verifyOk f = true →
      f ∈ (processBatchWithVerification env i batch).1.processed) ∧
    (env.verifyOk f = false → env.hasJson f = false →
      f ∈ (processBatchWithVerification env i batch).1.unmapped) ∧
    (env.verifyOk f = false → env.hasJson f = true →
      f ∉ (processBatchWithVerification env i batch).1.processed ∧
      f ∉ (processBatchWithVerification env i batch).1.unmapped) := by
  unfold processBatchWithVerification
  rw [hexec]
  simp only [route_processed_eq, route_unmapped_eq]
  refine ⟨?_, ?_, ?_⟩
  · intro hv
    simp [List.mem_filter, hf, hv]
  · intro hv hj
    simp [List.mem_filter, hf, hv, hj]
  · intro hv hj
    constructor <;> simp [List.mem_filter, hv, hj]

/-- Run oracle for the C1 witness. -/
def envC1w : RunEnv :=
  ⟨fun _ => true, fun s => s == "good.jpg", fun _ => true,
   fun _ => BatchExec.ok, fun _ => none⟩

/-- C1 witness: the amended routing theorem applied to a concrete batch. -/
theorem c1_batch_routing_witness :
    ("good.jpg" ∈ ["good.jpg", "bad.jpg"] ∧ envC1w.batchExec 1 = BatchExec.ok) ∧
    ((envC1w.verifyOk "good.jpg" = true →
       "good.jpg" ∈ (processBatchWithVerification envC1w 1 ["good.jpg", "bad.jpg"]).1.processed) ∧
     (envC1w.verifyOk "good.jpg" = false → envC1w.hasJson "good.jpg" = false →
       "good.jpg" ∈ (processBatchWithVerification envC1w 1 ["good.jpg", "bad.jpg"]).1.unmapped) ∧
     (envC1w.verifyOk "good.jpg" = false → envC1w.hasJson "good.jpg" = true →
       "good.jpg" ∉ (processBatchWithVerification envC1w 1 ["good.jpg", "bad.jpg"]).1.processed ∧
       "good.jpg" ∉ (processBatchWithVerification envC1w 1 ["good.jpg", "bad.jpg"]).1.unmapped)) :=
  ⟨⟨by decide, by decide⟩,
   c1_batch_routing envC1w 1 ["good.jpg", "bad.jpg"] "good.jpg" (by decide) (by decide)⟩

/-! ## C4: degradation to individual mode on batch failure -/

/-- Run oracle for the C4 counterexample: no file has a sidecar and the
bulk invocation fails. -/
def envC4 : RunEnv :=
  ⟨fun _ => false, fun _ => true, fun _ => true, fun _ => BatchExec.fail,
   fun _ => none⟩

/-- C4 counterexample: when the bulk invocation fails, an asset with no
locatable sidecar receives no individual invocation at all (it is routed
directly to the unmapped list), refuting the claim that every asset of
the batch is re-attempted with its own invocation. -/
theorem c4_counterexample :
    envC4.batchExec 1 = BatchExec.fail ∧
    Event.indivInvoke "b.jpg" ∉ (processBatchWithVerification envC4 1 ["b.jpg"]).2 ∧
    "b.jpg" ∈ (processBatchWithVerification envC4 1 ["b.jpg"]).1.unmapped := by
  refine ⟨rfl, ?_, ?_⟩ <;> decide

/-- C4 (amended): when the bulk invocation exits non-zero, times out or
raises, the per-batch result is taken entirely from the individual
attempts; every asset with a locatable sidecar is re-issued its own
individual invocation, while an asset with no sidecar is routed directly
to the unmapped list without an invocation. -/
theorem c4_individual_fallback (env : RunEnv) (i : Nat) (batch : List String)
    (hexec : env.batchExec i = BatchExec.fail) :
    (processBatchWithVerification env i batch).1
      = (processFilesIndividually env batch).1 ∧
    (∀ f, f ∈ batch → env.hasJson f = true →
      Event.indivInvoke f ∈ (processBatchWithVerification env i batch).2) ∧
    (∀ f, f ∈ batch → env.hasJson f = false →
      f ∈ (processBatchWithVerification env i batch).1.unmapped) := by
  unfold processBatchWithVerification
  rw [hexec]
  refine ⟨rfl, ?_, ?_⟩
  · intro f hf hj
    exact List.mem_cons_of_mem _ (indiv_invoked_mem env batch f hf hj)
  · intro f hf hj
    rw [indiv_unmapped_eq]
    simp [List.mem_filter, hf, hj]

/-- Run oracle for the C4 witness: "a.jpg" has a sidecar, "b.jpg" does
not, and every bulk invocation fails. -/
def envC4w : RunEnv :=
  ⟨fun s => s == "a.jpg", fun _ => true, fun _ => true,
   fun _ => BatchExec.fail, fun _ => none⟩

/-- C4 witness: the amended fallback theorem applied to a concrete batch. -/
theorem c4_individual_fallback_witness :
    envC4w.batchExec 1 = BatchExec.fail ∧
    ((processBatchWithVerification envC4w 1 ["a.jpg", "b.jpg"]).1
       = (processFilesIndividually envC4w ["a.jpg", "b.jpg"]).1 ∧
     (∀ f, f ∈ ["a.jpg", "b.jpg"] → envC4w.hasJson f = true →
       Event.indivInvoke f ∈ (processBatchWithVerification envC4w 1 ["a.jpg", "b.jpg"]).2) ∧
     (∀ f, f ∈ ["a.jpg", "b.jpg"] → envC4w.hasJson f = false →
       f ∈ (processBatchWithVerification envC4w 1 ["a.jpg", "b.jpg"]).1.unmapped)) :=
  ⟨by decide, c4_individual_fallback envC4w 1 ["a.jpg", "b.jpg"] (by decide)⟩

/-! ## C5: the processed counter and the reported success rate -/

/-- C5: in a real (non-dry) run the processed-files counter equals the
number of per-asset verification calls that returned true — an asset in a
successful batch that fails verification is not counted — and the
reported success rate equals that verified count divided by the total
number of discovered files (the `max 1` guard being inert once at least
one file was discovered). -/
theorem c5_report_counts (env : RunEnv) (files : List String)
    (bs total : Nat) (htotal : 0 < total) :
    (processWithExiftool env false files bs).1.successCount
      = countVerified (processWithExiftool env false files bs).2 ∧
    (generate_report false
        (processWithExiftool env false files bs).1.successCount total).1.successRate
      = (countVerified (processWithExiftool env false files bs).2 : Rat)
          / (total : Rat) * 100 := by
  have hmain :
      (processWithExiftool env false files bs).1.successCount
        = countVerified (processWithExiftool env false files bs).2 := by
    simp [processWithExiftool, countVerified_append, countVerified_map_copyOut,
      countVerified_map_copyUnmapped,
      runBatches_success_eq_countVerified env (chunkList bs files) 1]
  refine ⟨hmain, ?_⟩
  rw [← hmain]
  simp [generate_report, Nat.max_eq_right htotal]

/-- Run oracle for the C5 witness. -/
def envC5 : RunEnv :=
  ⟨fun _ => true, fun _ => true, fun _ => true, fun _ => BatchExec.ok,
   fun _ => none⟩

/-- C5 witness: the counting theorem applied to a concrete one-file run. -/
theorem c5_report_counts_witness :
    0 < 1 ∧
    ((processWithExiftool envC5 false ["x.jpg"] 50).1.successCount
       = countVerified (processWithExiftool envC5 false ["x.jpg"] 50).2 ∧
     (generate_report false
         (processWithExiftool envC5 false ["x.jpg"] 50).1.successCount 1).1.successRate
       = (countVerified (processWithExiftool envC5 false ["x.jpg"] 50).2 : Rat)
           / ((1 : Nat) : Rat) * 100) :=
  ⟨by decide, c5_report_counts envC5 ["x.jpg"] 50 1 (by decide)⟩

/-! ## C10: the dry-run frame property -/

theorem fixExt_dry_no_write (env : RunEnv) (files : List String) :
    ((fix_file_extensions env true files).2.all
      (fun e => !(Event.isWriteEffect e))) = true := by
  induction files with
  | nil => rfl
  | cons f rest ih =>
    have hstep : (fix_file_extensions env true (f :: rest)).2
        = Event.exifRead f :: (fix_file_extensions env true rest).2 := by
      cases h : env.detect f <;> simp [fix_file_extensions, h]
    rw [hstep]
    simp only [List.all_cons, Event.isWriteEffect, Bool.not_false, Bool.true_and]
    exact ih

/-- C10: with `dry_run` set, the whole pipeline performs no write
effect — extension fixing only issues read probes and never a rename, no
bulk or individual ExifTool write invocation is issued, no file is copied
to the output or unmapped trees, and the report file is not written.  The
combined event trace contains only read events. -/
theorem c10_dry_run_frame (env : RunEnv) (files files2 : List String)
    (bs p t : Nat) :
    (((fix_file_extensions env true files).2
        ++ (processWithExiftool env true files2 bs).2
        ++ (generate_report true p t).2).all
      (fun e => !(Event.isWriteEffect e))) = true := by
  have h2 : (processWithExiftool env true files2 bs).2 = [] := by
    simp [processWithExiftool]
  have h3 : (generate_report true p t).2 = [] := rfl
  rw [h2, h3, List.append_nil, List.append_nil]
  exact fixExt_dry_no_write env files

/-! ## Timestamp tolerance check (`verify_timestamp_accuracy` in
`src/verify_processing.py`, lines 229-270). -/

/-- A civil date-time (the components of `datetime` /
"YYYY:MM:DD HH:MM:SS" strings). -/
structure DateTime6 where
  year : Nat
  month : Nat
  day : Nat
  hour : Nat
  minute : Nat
  second : Nat
deriving DecidableEq

/-- Parse a decimal natural from a digits-only string (`int(ts)` on the
sidecar timestamp). -/
def parseNatDigits (s : String) : Option Nat :=
  if s.toList.isEmpty || !(s.toList.all isDigit) then none
  else some (s.toList.foldl (fun a c => a * 10 + digitVal c) 0)

/-- Parse an embedded date of the form "YYYY:MM:DD HH:MM:SS". -/
def parseExifDate (s : String) : Option DateTime6 :=
  match readDigits 4 0 s.toList with
  | some (y, ':' :: cs1) =>
    match readDigits 2 0 cs1 with
    | some (mo, ':' :: cs2) =>
      match readDigits 2 0 cs2 with
      | some (d, ' ' :: cs3) =>
        match readDigits 2 0 cs3 with
        | some (h, ':' :: cs4) =>
          match readDigits 2 0 cs4 with
          | some (mi, ':' :: cs5) =>
            match readDigits 2 0 cs5 with
            | some (s2, []) => some ⟨y, mo, d, h, mi, s2⟩
            | _ => none
          | _ => none
        | _ => none
      | _ => none
    | _ => none
  | _ => none

/-- Days since the Unix epoch of a Gregorian civil date (the standard
era-based algorithm; all intermediate divisions act on non-negative
values for the dates handled here). -/
def daysFromCivil (y m d : Nat) : Int :=
  let yy : Int := if m ≤ 2 then (y : Int) - 1 else (y : Int)
  let era : Int := yy / 400
  let yoe : Int := yy - era * 400
  let mp : Int := ((m : Int) + 9) % 12
  let doy : Int := (153 * mp + 2) / 5 + (d : Int) - 1
  let doe : Int := yoe * 365 + yoe / 4 - yoe / 100 + doy
  era * 146097 + doe - 719468

/-- Seconds since the Unix epoch of a civil date-time read as UTC. -/
def toEpochSeconds (dt : DateTime6) : Int :=
  daysFromCivil dt.year dt.month dt.day * 86400
    + dt.hour * 3600 + dt.minute * 60 + dt.second

/-- Model of `verify_timestamp_accuracy` as the source actually behaves: after the
truthiness guard on both inputs, line 239 evaluates
`datetime.timezone.utc` — but `from datetime import datetime` imported
only the class, which has no `timezone` attribute, so an AttributeError
is raised on every input that reaches this point, and the blanket
`except Exception` on line 269 turns it into `return False`.  The
tolerance comparison below it is unreachable and no
timestamp-accuracy issue is ever recorded. -/
def verify_timestamp_accuracy (originalTimestamp embeddedDate : Option String) :
    Bool :=
  if optTruthy originalTimestamp && optTruthy embeddedDate then
    false
  else
    false

/-- The tolerance logic the function was written to perform (lines
239-267 of the source, as the claim states it): interpret the sidecar
timestamp both as UTC and as local time (local time modelled as UTC plus
a fixed offset), compare each against the parsed embedded date, and
accept iff the smaller difference is at most the slack
(21600 seconds in the source). -/
def verify_timestamp_accuracy_intended (localOffset : Int) (tolerance : Nat)
    (originalTimestamp embeddedDate : Option String) : Bool :=
  if optTruthy originalTimestamp && optTruthy embeddedDate then
    match originalTimestamp, embeddedDate with
    | some ts, some ed =>
      match parseNatDigits ts, parseExifDate ed with
      | some t, some dt =>
        decide (min ((t : Int) - toEpochSeconds dt).natAbs
                    ((t : Int) + localOffset - toEpochSeconds dt).natAbs
                ≤ tolerance)
      | _, _ => false
    | _, _ => false
  else
    false

/-- C9: at a sidecar timestamp whose UTC rendering exactly equals the
embedded date (difference 0 ≤ 21600 s), the intended tolerance check
accepts but the source function returns false — it returns false for
every input because `datetime.timezone.utc` raises AttributeError under
the module's import of the bare `datetime` class, and the blanket except
swallows it. -/
theorem c9_timestamp_divergence :
    verify_timestamp_accuracy (some "1693584000") (some "2023:09:01 16:00:00")
      = false ∧
    verify_timestamp_accuracy_intended 0 21600
      (some "1693584000") (some "2023:09:01 16:00:00") = true ∧
    verify_timestamp_accuracy_intended 0 21600
        (some "1693584000") (some "2023:09:01 16:00:00")
      ≠ verify_timestamp_accuracy (some "1693584000") (some "2023:09:01 16:00:00") := by
  refine ⟨rfl, by decide, by decide⟩

/-! ## Strategy-chain resolver.

Modelled from the spec: the enhanced strategy resolver
(`find_json_metadata_enhanced`, `_can_extract_filename_metadata`,
`extract_filename_metadata` and companions) is exercised by
`src/test_takeout_processor.py` but its implementation is not among the
provided sources; the chain below follows the spec's §4.2 resolution
order (DirectJson, InheritedJson, AlternativeJson, FilenameDerived,
ExifPreserved, AlbumDateInferred, None), reusing the sidecar-suffix
search and the edited-photo pattern matcher embedded above from
`src/takeout_processor.py`. -/

/-- The normalized record a resolution strategy produces (spec §3,
MetadataSource). -/
structure MetadataRecord where
  capturedAt : Option DateTime6
  latitude : Option Rat
  longitude : Option Rat
  altitude : Option Rat
  description : Option String
  tags : List String
  title : Option String
deriving DecidableEq

/-- The record with every field absent. -/
def emptyRecord : MetadataRecord :=
  ⟨none, none, none, none, none, [], none⟩

/-- The strategy tags of the resolution chain (spec §3). -/
inductive Strategy where
  | directJson
  | inheritedJson
  | alternativeJson
  | filenameDerived
  | exifPreserved
  | albumDateInferred
  | unresolved
deriving DecidableEq

/-- Environment of the resolver: sidecar existence oracle, parsed sidecar
records, and the directory listing (in listing order) used by the
AlternativeJson strategy. -/
structure ResolveEnv where
  exists_ : String → Bool
  record : String → MetadataRecord
  dirListing : List String

/-- Strip the known camera prefixes (`IMG_`, `PANO_`, `VID_`) from a
stem.  Modelled from the spec: `extractTimestamp` recognizes these
prefixed encodings. -/
def stripCameraTag (cs : List Char) : List Char :=
  if ("IMG_".toList).isPrefixOf cs then cs.drop 4
  else if ("PANO_".toList).isPrefixOf cs then cs.drop 5
  else if ("VID_".toList).isPrefixOf cs then cs.drop 4
  else cs

/-- Parse the compact encoding `YYYYMMDD_HHMMSS`, returning the remaining
characters. -/
def parseCompact (cs : List Char) : Option (DateTime6 × List Char) :=
  match readDigits 4 0 cs with
  | some (y, cs1) =>
    match readDigits 2 0 cs1 with
    | some (mo, cs2) =>
      match readDigits 2 0 cs2 with
      | some (d, '_' :: cs3) =>
        match readDigits 2 0 cs3 with
        | some (h, cs4) =>
          match readDigits 2 0 cs4 with
          | some (mi, cs5) =>
            match readDigits 2 0 cs5 with
            | some (s, cs6) => some (⟨y, mo, d, h, mi, s⟩, cs6)
            | none => none
          | none => none
        | none => none
      | _ => none
    | none => none
  | none => none

/-- Parse the dashed encodings `YYYY-MM-DD HH-MM-SS` and date-only
`YYYY-MM-DD` (time defaulting to noon), consuming the whole input. -/
def parseDashed (cs : List Char) : Option DateTime6 :=
  match readDigits 4 0 cs with
  | some (y, '-' :: cs1) =>
    match readDigits 2 0 cs1 with
    | some (mo, '-' :: cs2) =>
      match readDigits 2 0 cs2 with
      | some (d, rest) =>
        match rest with
        | [] => some ⟨y, mo, d, 12, 0, 0⟩
        | ' ' :: cs3 =>
          match readDigits 2 0 cs3 with
          | some (h, '-' :: cs4) =>
            match readDigits 2 0 cs4 with
            | some (mi, '-' :: cs5) =>
              match readDigits 2 0 cs5 with
              | some (s, []) => some ⟨y, mo, d, h, mi, s⟩
              | _ => none
            | _ => none
          | _ => none
        | _ => none
      | none => none
    | _ => none
  | _ => none

/-- Modelled from the spec: `extractTimestamp` — anchored recognition of
the fixed filename date encodings (`IMG_/PANO_/VID_` prefixed or bare
`YYYYMMDD_HHMMSS`, optionally carrying the `-EFFECTS` suffix, and the
dashed forms with date-only defaulting to noon); names without a leading
date grammar yield nothing. -/
def extractTimestamp (name : String) : Option DateTime6 :=
  let stem := dropExt name.toList
  match parseCompact (stripCameraTag stem) with
  | some (dt, rest) =>
    if rest.isEmpty || rest == "-EFFECTS".toList then some dt else none
  | none => parseDashed stem

/-- AlternativeJson match: a sidecar file in the same directory whose
name starts with the asset's stem (spec §4.2 step 3). -/
def altSidecarMatch (name j : String) : Bool :=
  ((stemOf name).toList).isPrefixOf j.toList
    && (".json".toList).isSuffixOf j.toList

/-- Modelled from the spec: the "Photos from <year>" historical-archive
album pattern. -/
def photosFromYear (album : String) : Bool :=
  ("Photos from ".toList).isPrefixOf album.toList
    && (album.toList.drop 12).length == 4
    && (album.toList.drop 12).all isDigit

/-- Modelled from the spec: a legacy camera-dump filename — a fixed
prefix token followed only by digits and no date grammar (the "DVC"
pattern of the tests). -/
def legacyCameraName (name : String) : Bool :=
  ("DVC".toList).isPrefixOf (dropExt name.toList)
    && !((dropExt name.toList).drop 3).isEmpty
    && ((dropExt name.toList).drop 3).all isDigit

/-- Modelled from the spec: `hasLikelyEmbeddedTimestamp(name, album)`. -/
def hasLikelyEmbeddedTimestamp (name album : String) : Bool :=
  photosFromYear album || legacyCameraName name

/-- Modelled from the spec: `inferDateFromAlbum` — "Photos from YYYY" and
"YYYY <suffix>" forms with a plausible year (1990 up to one past the
source's era). -/
def inferDateFromAlbum (album : String) : Option Nat :=
  let body := if ("Photos from ".toList).isPrefixOf album.toList
    then album.toList.drop 12 else album.toList
  match readDigits 4 0 body with
  | some (y, rest) =>
    if (match rest with
        | [] => true
        | ' ' :: _ => true
        | _ => false) && 1990 ≤ y && y ≤ 2026 then some y else none
  | none => none

/-- Modelled from the spec: `resolve(asset)` — the §4.2 precedence chain.
Steps 1-2 reuse the embedded `find_json_metadata` (direct candidates for
the exact name, then the inherited search for an edited variant's
original); step 3 scans the directory listing for a sidecar starting with
the asset's stem; step 4 synthesizes a record with only `capturedAt` from
the filename; steps 5-6 produce the ExifPreserved no-write marker and the
album-date inference (Jan 1, noon); step 7 is the unresolved bucket. -/
def resolve (env : ResolveEnv) (parent album name : String) :
    Strategy × MetadataRecord :=
  match (sidecar_patterns (parent ++ "/" ++ name)).find? env.exists_ with
  | some p => (Strategy.directJson, env.record p)
  | none =>
    match find_json_metadata env.exists_ parent name with
    | some p => (Strategy.inheritedJson, env.record p)
    | none =>
      match env.dirListing.find? (fun j => altSidecarMatch name j) with
      | some j => (Strategy.alternativeJson, env.record (parent ++ "/" ++ j))
      | none =>
        match extractTimestamp name with
        | some dt =>
          (Strategy.filenameDerived, { emptyRecord with capturedAt := some dt })
        | none =>
          if hasLikelyEmbeddedTimestamp name album then
            (Strategy.exifPreserved, emptyRecord)
          else
            match inferDateFromAlbum album with
            | some y =>
              (Strategy.albumDateInferred,
               { emptyRecord with capturedAt := some ⟨y, 1, 1, 12, 0, 0⟩ })
            | none => (Strategy.unresolved, emptyRecord)

theorem find_json_none_direct (ex : String → Bool) (parent name : String)
    (h : find_json_metadata ex parent name = none) :
    (sidecar_patterns (parent ++ "/" ++ name)).find? ex = none := by
  cases hfd : (sidecar_patterns (parent ++ "/" ++ name)).find? ex with
  | none => rfl
  | some p =>
    rw [find_json_metadata, hfd] at h
    cases h

/-- C8: an asset with no sidecar JSON under any suffix convention (direct
or inherited) and no alternative sidecar in its directory, whose filename
carries an extractable timestamp, resolves to the FilenameDerived
strategy with only `capturedAt` populated from the filename — it is not
routed to the unresolved bucket. -/
theorem c8_filename_derived (env : ResolveEnv) (parent album name : String)
    (dt : DateTime6)
    (hjson : find_json_metadata env.exists_ parent name = none)
    (halt : env.dirListing.find? (fun j => altSidecarMatch name j) = none)
    (hts : extractTimestamp name = some dt) :
    resolve env parent album name
      = (Strategy.filenameDerived, { emptyRecord with capturedAt := some dt }) ∧
    (resolve env parent album name).1 ≠ Strategy.unresolved := by
  have hdirect := find_json_none_direct env.exists_ parent name hjson
  have hres : resolve env parent album name
      = (Strategy.filenameDerived, { emptyRecord with capturedAt := some dt }) := by
    rw [resolve, hdirect, hjson, halt, hts]
  exact ⟨hres, by rw [hres]; simp⟩

/-- Resolver environment for the C8 witness: no sidecar exists anywhere
and the directory listing is empty. -/
def envC8 : ResolveEnv :=
  ⟨fun _ => false, fun _ => emptyRecord, []⟩

/-- C8 witness: the theorem applied to "IMG_20210619_125530.jpg", whose
filename yields 2021-06-19 12:55:30. -/
theorem c8_filename_derived_witness :
    (find_json_metadata envC8.exists_ "album" "IMG_20210619_125530.jpg" = none ∧
     envC8.dirListing.find? (fun j => altSidecarMatch "IMG_20210619_125530.jpg" j) = none ∧
     extractTimestamp "IMG_20210619_125530.jpg" = some ⟨2021, 6, 19, 12, 55, 30⟩) ∧
    (resolve envC8 "album" "Test Album" "IMG_20210619_125530.jpg"
       = (Strategy.filenameDerived,
          { emptyRecord with capturedAt := some ⟨2021, 6, 19, 12, 55, 30⟩ }) ∧
     (resolve envC8 "album" "Test Album" "IMG_20210619_125530.jpg").1
       ≠ Strategy.unresolved) :=
  ⟨⟨by decide, by decide, by decide⟩,
   c8_filename_derived envC8 "album" "Test Album" "IMG_20210619_125530.jpg"
     ⟨2021, 6, 19, 12, 55, 30⟩ (by decide) (by decide) (by decide)⟩
